import Mathlib

/-!
# Verification of the game-session membership core

A shallow embedding of the game/membership service (`games.server`-style
module) of the repository: the persisted store (games and game_players
tables) is a pure state value, each service operation is a state-passing
function returning the `{ ok, message }` envelope of the source, and the
two uses of `Math.random()` (join codes and Fisher-Yates shuffling) are
modelled by an index-addressed source of naturals.

Modelling notes, applied throughout:
* `Math.floor(Math.random() * k)` is modelled as `r % k` for a natural
  `r` drawn from the randomness source, which ranges over exactly the
  same interval `[0, k)`.
* SQL result sets are lists; `LIMIT 1` is `List.head?` of the filter,
  `affectedRows` of an UPDATE is modelled as the number of matched rows
  (the mysql2 pool configuration is not part of the sources; the spec
  describes the idempotent-upgrade reading of `approvePlayer`).
* The creation-time ordering of rows (`ORDER BY ... created_at`) and the
  timestamp columns are not modelled: no claim depends on them.
* `DELETE FROM games` cascading to `game_players` is modelled from the
  spec ("destroyed by an explicit admin delete, which cascades to delete
  all its Membership rows"); the foreign-key DDL is not in the sources.
-/

/-! ## Data model (`games` and `game_players` rows) -/

inductive GamePlayerStatus
  | admin
  | waiting
  | confirmed
deriving DecidableEq

inductive GameStatus
  | not_started
  | started
  | finished
deriving DecidableEq

inductive HexTerrain
  | wood
  | wheat
  | sheep
  | brick
  | ore
  | desert
deriving DecidableEq

structure GameStateTile where
  id : Nat
  terrain : HexTerrain
  token : Option Nat
  hasRobber : Bool
deriving DecidableEq

structure GameState where
  playerOrder : List String
  tiles : List GameStateTile
deriving DecidableEq

structure GamePlayer where
  id : Nat
  gameId : Nat
  email : String
  status : GamePlayerStatus
  isCurrent : Bool
deriving DecidableEq

structure Game where
  id : Nat
  name : String
  joinCode : String
  createdBy : String
  status : GameStatus
  gameState : GameState
deriving DecidableEq

/-- The persistent store: the `games` and `game_players` tables plus the
auto-increment counters of both tables. -/
structure Store where
  games : List Game
  players : List GamePlayer
  nextGameId : Nat
  nextPlayerId : Nat
deriving DecidableEq

/-- The `{ ok, message }` envelope every mutating operation returns. -/
structure ActionResult where
  ok : Bool
  message : String
deriving DecidableEq

def notAdminMsg : String := "You are not an admin for this game."

/-! ## Query helpers (direct embeddings of the SQL helpers) -/

/-- `isAdmin(gameId, email)`: SELECT 1 FROM game_players WHERE game_id
AND player_email AND status = admin LIMIT 1. -/
def isAdmin (s : Store) (gameId : Nat) (email : String) : Bool :=
  s.players.any fun p =>
    p.gameId == gameId && p.email == email && p.status == GamePlayerStatus.admin

/-- `getPlayer(gameId, email)`: the sole row of the (game, member) pair,
`LIMIT 1` modelled as the head of the filtered rows. -/
def getPlayer (s : Store) (gameId : Nat) (email : String) : Option GamePlayer :=
  (s.players.filter fun p => p.gameId == gameId && p.email == email).head?

/-- The membership rows of one game (`fetchPlayersByGameIds` restricted
to a single id; the SQL ordering is not modelled). -/
def playersOf (s : Store) (gameId : Nat) : List GamePlayer :=
  s.players.filter fun p => p.gameId == gameId

def getGame (s : Store) (gameId : Nat) : Option Game :=
  (s.games.filter fun g => g.id == gameId).head?

def getGameByJoinCode (s : Store) (joinCode : String) : Option Game :=
  (s.games.filter fun g => g.joinCode == joinCode).head?

/-! ## Join-code generation

`String(Math.floor(Math.random() * 900000) + 100000)`: a decimal
rendering of a candidate in `[100000, 999999]`, retried up to 10 times
against the existing `join_code` column values. -/

/-- The candidate number of one draw; `r` is the raw draw of the source
and `r % 900000` embeds `Math.floor(Math.random() * 900000)`. -/
def joinCodeNat (r : Nat) : Nat := 100000 + r % 900000

/-- Little-endian decimal digits, fuel-structured so that the kernel can
evaluate it (the fuel `n` always suffices for the number `n`). -/
def natDigitsAux : Nat → Nat → List Nat
  | 0, _ => []
  | _ + 1, 0 => []
  | fuel + 1, n + 1 => (n + 1) % 10 :: natDigitsAux fuel ((n + 1) / 10)

def natDigits (n : Nat) : List Nat := natDigitsAux n n

def digitChar (d : Nat) : Char := Char.ofNat (48 + d)

/-- JavaScript `String(n)` for a natural number: most-significant-first
decimal digits. -/
def renderNat (n : Nat) : String :=
  if n == 0 then "0" else String.mk ((natDigits n).reverse.map digitChar)

def gameHasCode (s : Store) (code : String) : Bool :=
  s.games.any fun g => g.joinCode == code

/-- The retry loop of `generateJoinCode`: `attempt` is the loop counter
(also indexing the randomness source), `fuel` the remaining attempts. -/
def generateJoinCodeLoop (s : Store) (rand : Nat → Nat) : Nat → Nat → Option String
  | _, 0 => none
  | attempt, fuel + 1 =>
    if gameHasCode s (renderNat (joinCodeNat (rand attempt))) then
      generateJoinCodeLoop s rand (attempt + 1) fuel
    else some (renderNat (joinCodeNat (rand attempt)))

/-- `generateJoinCode()`: 10 attempts; `none` embeds the thrown
`Could not generate a unique join code` error. -/
def generateJoinCode (s : Store) (rand : Nat → Nat) : Option String :=
  generateJoinCodeLoop s rand 0 10

/-! ## Membership state machine operations -/

/-- `createGame(name, creatorEmail)`: allocates a join code, inserts the
game with phase `not_started` and state `{ playerOrder: [creator],
tiles: [] }`, and inserts the creator's `admin` row, current iff the
creator had no current row before.  `none` embeds the join-code
exhaustion error. -/
def createGame (s : Store) (rand : Nat → Nat) (name creatorEmail : String) :
    Option (Store × Game) :=
  match generateJoinCode s rand with
  | none => none
  | some joinCode =>
    let markCurrent := !(s.players.any fun p => p.email == creatorEmail && p.isCurrent)
    let initialState : GameState := ⟨[creatorEmail], []⟩
    let game : Game :=
      ⟨s.nextGameId, name, joinCode, creatorEmail, GameStatus.not_started, initialState⟩
    let row : GamePlayer :=
      ⟨s.nextPlayerId, s.nextGameId, creatorEmail, GamePlayerStatus.admin, markCurrent⟩
    some ({ games := s.games ++ [game]
            players := s.players ++ [row]
            nextGameId := s.nextGameId + 1
            nextPlayerId := s.nextPlayerId + 1 }, game)

/-- `requestJoinGame(joinCode, email)`: no-op reporting the existing row
when one exists, otherwise inserts a `waiting` row (the `is_current`
column defaults to 0). -/
def requestJoinGame (s : Store) (joinCode : String) (email : String) :
    Store × ActionResult :=
  match getGameByJoinCode s joinCode with
  | none => (s, ⟨false, "Game not found with that code."⟩)
  | some game =>
    match getPlayer s game.id email with
    | some existing =>
      if existing.status == GamePlayerStatus.waiting then
        (s, ⟨true, "You have already requested to join this game."⟩)
      else
        (s, ⟨true, "You are already part of this game."⟩)
    | none =>
      let row : GamePlayer :=
        ⟨s.nextPlayerId, game.id, email, GamePlayerStatus.waiting, false⟩
      ({ s with players := s.players ++ [row], nextPlayerId := s.nextPlayerId + 1 },
       ⟨true, "Join request submitted. Waiting for admin approval."⟩)

/-- `approvePlayer(gameId, targetEmail, adminEmail)`: after the admin
check, `UPDATE game_players SET status = confirmed` on the (game,
target) pair with no check of the prior role; failure iff no row
matched. -/
def approvePlayer (s : Store) (gameId : Nat) (targetEmail adminEmail : String) :
    Store × ActionResult :=
  if !(isAdmin s gameId adminEmail) then
    (s, ⟨false, notAdminMsg⟩)
  else
    let affected :=
      (s.players.filter fun p => p.gameId == gameId && p.email == targetEmail).length
    let updated := s.players.map fun p =>
      if p.gameId == gameId && p.email == targetEmail then
        { p with status := GamePlayerStatus.confirmed }
      else p
    if affected == 0 then
      ({ s with players := updated }, ⟨false, "Player not found for this game."⟩)
    else
      ({ s with players := updated }, ⟨true, "Player approved."⟩)

/-- `rejectPlayer`: DELETE of the (game, target) row restricted to
status `waiting`; failure iff nothing was deleted. -/
def rejectPlayer (s : Store) (gameId : Nat) (targetEmail adminEmail : String) :
    Store × ActionResult :=
  if !(isAdmin s gameId adminEmail) then
    (s, ⟨false, notAdminMsg⟩)
  else
    let affected :=
      (s.players.filter fun p =>
        p.gameId == gameId && p.email == targetEmail &&
          p.status == GamePlayerStatus.waiting).length
    let remaining := s.players.filter fun p =>
      !(p.gameId == gameId && p.email == targetEmail &&
          p.status == GamePlayerStatus.waiting)
    if affected == 0 then
      ({ s with players := remaining }, ⟨false, "Waiting request not found."⟩)
    else
      ({ s with players := remaining }, ⟨true, "Join request rejected."⟩)

/-- `removePlayer`: admin check, target lookup, admin-target guard, then
DELETE by the row id. -/
def removePlayer (s : Store) (gameId : Nat) (targetEmail adminEmail : String) :
    Store × ActionResult :=
  if !(isAdmin s gameId adminEmail) then
    (s, ⟨false, notAdminMsg⟩)
  else
    match getPlayer s gameId targetEmail with
    | none => (s, ⟨false, "Player not found for this game."⟩)
    | some target =>
      if target.status == GamePlayerStatus.admin then
        (s, ⟨false, "Cannot remove an admin from their own game."⟩)
      else
        ({ s with players := s.players.filter fun p => !(p.id == target.id) },
         ⟨true, "Player removed."⟩)

/-- `leaveGame`: like `removePlayer` but self-service and without the
admin authorisation check. -/
def leaveGame (s : Store) (gameId : Nat) (email : String) : Store × ActionResult :=
  match getPlayer s gameId email with
  | none => (s, ⟨false, "You are not part of this game."⟩)
  | some player =>
    if player.status == GamePlayerStatus.admin then
      (s, ⟨false, "Admins cannot leave their own game. Delete the game instead."⟩)
    else
      ({ s with players := s.players.filter fun p => !(p.id == player.id) },
       ⟨true, "You left the game."⟩)

/-- `deleteGame`: admin check, then DELETE of the game row (cascading to
its membership rows, per the spec). -/
def deleteGame (s : Store) (gameId : Nat) (adminEmail : String) : Store × ActionResult :=
  if !(isAdmin s gameId adminEmail) then
    (s, ⟨false, notAdminMsg⟩)
  else
    let affected := (s.games.filter fun g => g.id == gameId).length
    if affected == 0 then
      (s, ⟨false, "Game not found."⟩)
    else
      ({ s with games := s.games.filter fun g => !(g.id == gameId)
                players := s.players.filter fun p => !(p.gameId == gameId) },
       ⟨true, "Game deleted."⟩)

/-- `setCurrentGameForUser`: membership check, then one transaction that
clears `is_current` on every row of the member and sets it on the rows
of the targeted game. -/
def setCurrentGameForUser (s : Store) (gameId : Nat) (email : String) :
    Store × ActionResult :=
  match getPlayer s gameId email with
  | none => (s, ⟨false, "You are not part of this game."⟩)
  | some _ =>
    let cleared := s.players.map fun p =>
      if p.email == email then { p with isCurrent := false } else p
    let updated := cleared.map fun p =>
      if p.gameId == gameId && p.email == email then { p with isCurrent := true } else p
    ({ s with players := updated }, ⟨true, "Current game updated."⟩)

/-! ## Player order -/

/-- The push loop of `normalizePlayerOrder`: appends each email of the
eligible list that is not already present in the accumulated list. -/
def appendMissing (cleaned : List String) : List String → List String
  | [] => cleaned
  | email :: rest =>
    if cleaned.contains email then appendMissing cleaned rest
    else appendMissing (cleaned ++ [email]) rest

/-- `normalizePlayerOrder(currentOrder, confirmedEmails)`: filter the
proposed order to the eligible set, then append the missing eligible
emails. -/
def normalizePlayerOrder (currentOrder confirmedEmails : List String) : List String :=
  appendMissing (currentOrder.filter fun email => confirmedEmails.contains email)
    confirmedEmails

/-- `saveGameState(gameId, state)`: UPDATE of the `game_state` column. -/
def saveGameState (s : Store) (gameId : Nat) (state : GameState) : Store :=
  { s with games := s.games.map fun g =>
      if g.id == gameId then { g with gameState := state } else g }

/-- The eligible emails of `reorderPlayerOrder`: members whose role is
admin or confirmed. -/
def eligibleEmails (s : Store) (gameId : Nat) : List String :=
  ((playersOf s gameId).filter fun p =>
    p.status == GamePlayerStatus.admin || p.status == GamePlayerStatus.confirmed).map
    fun p => p.email

/-- `reorderPlayerOrder(gameId, adminEmail, newOrder)`. -/
def reorderPlayerOrder (s : Store) (gameId : Nat) (adminEmail : String)
    (newOrder : List String) : Store × ActionResult :=
  match getGame s gameId with
  | none => (s, ⟨false, "Game not found."⟩)
  | some game =>
    if !(game.status == GameStatus.not_started) then
      (s, ⟨false, "Cannot reorder after game start."⟩)
    else if !(isAdmin s gameId adminEmail) then
      (s, ⟨false, notAdminMsg⟩)
    else
      let confirmed := eligibleEmails s gameId
      let normalized := normalizePlayerOrder newOrder confirmed
      if normalized.length != confirmed.length ||
          confirmed.any fun email => !(normalized.contains email) then
        (s, ⟨false, "Order must include all confirmed players exactly once."⟩)
      else
        (saveGameState s gameId { game.gameState with playerOrder := normalized },
         ⟨true, "Player order updated."⟩)

/-! ## Session phase -/

/-- The rendering of `status.replace(UNDERSCORE, SPACE)` at the three
possible statuses. -/
def statusText : GameStatus → String
  | GameStatus.not_started => "not started"
  | GameStatus.started => "started"
  | GameStatus.finished => "finished"

/-- `updateGameStatus(gameId, adminEmail, status)`: admin check, then an
unconditional UPDATE of the `status` column (no edge restriction). -/
def updateGameStatus (s : Store) (gameId : Nat) (adminEmail : String)
    (status : GameStatus) : Store × ActionResult :=
  if !(isAdmin s gameId adminEmail) then
    (s, ⟨false, notAdminMsg⟩)
  else
    let affected := (s.games.filter fun g => g.id == gameId).length
    if affected == 0 then
      (s, ⟨false, "Game not found."⟩)
    else
      ({ s with games := s.games.map fun g =>
          if g.id == gameId then { g with status := status } else g },
       ⟨true, "Game marked as " ++ statusText status ++ "."⟩)

/-- The `update-status` case of the route action: the posted `status`
field is accepted whenever it is one of the three `GAME_STATUSES`
values (the empty or absent field is falsy and rejected), and is then
passed to `updateGameStatus` unchanged. -/
def parseStatus (st : String) : Option GameStatus :=
  if st == "not_started" then some GameStatus.not_started
  else if st == "started" then some GameStatus.started
  else if st == "finished" then some GameStatus.finished
  else none

def gameActionUpdateStatus (s : Store) (gameId : Nat) (email : String)
    (statusField : Option String) : Store × ActionResult :=
  match statusField with
  | none => (s, ⟨false, "Invalid status."⟩)
  | some st =>
    match parseStatus st with
    | none => (s, ⟨false, "Invalid status."⟩)
    | some status => updateGameStatus s gameId email status

/-! ## Board layout -/

/-- One Fisher-Yates swap: exchange positions `i` and `j`; out-of-range
indices never occur in the source loop and leave the list unchanged
here. -/
def swapList {α : Type} (l : List α) (i j : Nat) : List α :=
  match l[i]?, l[j]? with
  | some a, some b => (l.set i b).set j a
  | _, _ => l

/-- The Fisher-Yates loop of `shuffle`, counting `i` down to 1; the
draw `Math.floor(Math.random() * (i + 1))` is `rand i % (i + 1)`. -/
def fyLoop {α : Type} (rand : Nat → Nat) : List α → Nat → List α
  | arr, 0 => arr
  | arr, i + 1 => fyLoop rand (swapList arr (i + 1) (rand (i + 1) % (i + 2))) i

def shuffle {α : Type} (rand : Nat → Nat) (items : List α) : List α :=
  fyLoop rand items (items.length - 1)

/-- The fixed terrain multiset of `generateGameLayout`. -/
def terrains0 : List HexTerrain :=
  [HexTerrain.wood, HexTerrain.wood, HexTerrain.wood, HexTerrain.wood,
   HexTerrain.wheat, HexTerrain.wheat, HexTerrain.wheat, HexTerrain.wheat,
   HexTerrain.sheep, HexTerrain.sheep, HexTerrain.sheep, HexTerrain.sheep,
   HexTerrain.brick, HexTerrain.brick, HexTerrain.brick,
   HexTerrain.ore, HexTerrain.ore, HexTerrain.ore,
   HexTerrain.desert]

/-- The fixed 18-token multiset. -/
def tokens0 : List Nat := [2, 12, 3, 3, 4, 4, 5, 5, 6, 6, 8, 8, 9, 9, 10, 10, 11, 11]

/-- The canonical terrain arrangement of the `standard` preset. -/
def standardTerrains : List HexTerrain :=
  [HexTerrain.ore, HexTerrain.wheat, HexTerrain.wood,
   HexTerrain.brick, HexTerrain.wood, HexTerrain.wheat, HexTerrain.brick,
   HexTerrain.wheat, HexTerrain.sheep, HexTerrain.desert, HexTerrain.ore, HexTerrain.brick,
   HexTerrain.wood, HexTerrain.wheat, HexTerrain.sheep, HexTerrain.wood,
   HexTerrain.brick, HexTerrain.sheep, HexTerrain.ore]

/-- The canonical token arrangement of the `standard` preset (the null
placeholder of the desert tile already filtered out, as in the
source). -/
def standardTokens : List Nat :=
  [10, 2, 9, 12, 6, 4, 10, 9, 11, 3, 8, 5, 4, 11, 8, 5, 6, 3]

/-- The tile-building map of `generateGameLayout`: walk the shuffled
terrains; a desert tile takes no token and the robber, any other tile
shifts the next shuffled token (`shift() ?? null` is `head?`). -/
def buildTiles : List HexTerrain → List Nat → Nat → List GameStateTile
  | [], _, _ => []
  | terrain :: rest, toks, index =>
    if terrain == HexTerrain.desert then
      ⟨index + 1, terrain, none, true⟩ :: buildTiles rest toks (index + 1)
    else
      ⟨index + 1, terrain, toks.head?, false⟩ :: buildTiles rest toks.tail (index + 1)

/-- `generateGameLayout(gameId, adminEmail, opts)`: existence, admin and
phase guards, then the tiles are built from the shuffled (or preset)
terrain and token lists and stored together with the re-normalized
player order (eligible set: every non-waiting member). -/
def generateGameLayout (s : Store) (gameId : Nat) (adminEmail : String)
    (preset : Option String) (randT randK : Nat → Nat) : Store × ActionResult :=
  match getGame s gameId with
  | none => (s, ⟨false, "Game not found."⟩)
  | some game =>
    if !(isAdmin s gameId adminEmail) then
      (s, ⟨false, notAdminMsg⟩)
    else if !(game.status == GameStatus.not_started) then
      (s, ⟨false, "Layout can be created only before the game starts."⟩)
    else
      let shuffledTerrains :=
        if preset == some "standard" then standardTerrains else shuffle randT terrains0
      let shuffledTokens :=
        if preset == some "standard" then standardTokens else shuffle randK tokens0
      let tiles := buildTiles shuffledTerrains shuffledTokens 0
      let eligible := ((playersOf s gameId).filter fun p =>
        !(p.status == GamePlayerStatus.waiting)).map fun p => p.email
      let newState : GameState :=
        ⟨normalizePlayerOrder game.gameState.playerOrder eligible, tiles⟩
      (saveGameState s gameId newState, ⟨true, "Game layout generated."⟩)

/-- The tiles random-mode generation builds: terrains and tokens both
Fisher-Yates-shuffled, then zipped by the desert-skipping walk. -/
def layoutTiles (randT randK : Nat → Nat) : List GameStateTile :=
  buildTiles (shuffle randT terrains0) (shuffle randK tokens0) 0

/-! ## Derived observations used by the claims -/

/-- The number of admin-role rows of one game. -/
def adminCount (s : Store) (gameId : Nat) : Nat :=
  ((playersOf s gameId).filter fun p => p.status == GamePlayerStatus.admin).length

/-- Exactly one admin-role membership per existing session. -/
def adminInvariant (s : Store) : Prop :=
  ∀ g ∈ s.games, adminCount s g.id = 1

instance : DecidablePred adminInvariant := fun s => by
  unfold adminInvariant
  infer_instance

/-- The rows of one member that carry the current flag, across all
games. -/
def currentRows (s : Store) (email : String) : List GamePlayer :=
  s.players.filter fun p => p.email == email && p.isCurrent

/-- A 6-character all-digit string, the space the join-code claim draws
from. -/
def isSixDigitString (str : String) : Bool :=
  str.length == 6 && str.data.all Char.isDigit

/-! ## The stored `game_state` value and `parseGameState`

The `game_state` column is a JSON column (its migration declares
`game_state JSON NOT NULL DEFAULT (JSON_OBJECT())`), so the runtime
value reaching `parseGameState` is `null`, a string, or an
already-materialized JSON value of arbitrary shape; the function is
modelled over a JSON value type, and `JSON.parse` is an arbitrary
parser argument (`none` embeds a thrown parse error). -/

inductive Json
  | null
  | bool (b : Bool)
  | num (n : Int)
  | str (s : String)
  | arr (items : List Json)
  | obj (fields : List (String × Json))

/-- JavaScript property access on an object value. -/
def jsLookup (fields : List (String × Json)) (key : String) : Option Json :=
  ((fields.filter fun kv => kv.1 == key).head?).map fun kv => kv.2

mutual

/-- The JavaScript `String(x)` coercion applied by
`parsed.playerOrder.map(String)`. -/
def jsToString : Json → String
  | Json.null => "null"
  | Json.bool b => if b then "true" else "false"
  | Json.num n => toString n
  | Json.str s => s
  | Json.arr items => String.intercalate "," (jsToStringList items)
  | Json.obj _ => "[object Object]"

def jsToStringList : List Json → List String
  | [] => []
  | j :: rest => jsToString j :: jsToStringList rest

end

/-- The runtime type of the `game_state` column value:
`string | GameState | null`. -/
inductive StoredState
  | nullv
  | strv (s : String)
  | objv (j : Json)

def emptyGameStateJson : Json :=
  Json.obj [("playerOrder", Json.arr []), ("tiles", Json.arr [])]

/-- `Array.isArray(parsed.playerOrder) ? parsed.playerOrder.map(String) : []`. -/
def playerOrderField : Json → List Json
  | Json.obj fields =>
    match jsLookup fields "playerOrder" with
    | some (Json.arr items) => items.map fun item => Json.str (jsToString item)
    | _ => []
  | _ => []

/-- `Array.isArray(parsed.tiles) ? parsed.tiles : []`. -/
def tilesField : Json → List Json
  | Json.obj fields =>
    match jsLookup fields "tiles" with
    | some (Json.arr items) => items
    | _ => []
  | _ => []

/-- `parseGameState(value)`. The `!value` guard is JavaScript falsiness:
it also catches the empty string. A string is parsed and its
`playerOrder` and `tiles` fields are kept only when they are arrays
(`playerOrder` coerced to strings); a thrown parse error or any
non-array field falls back to the empty shape. An already-materialized
object is returned as-is (`value as GameState`, unvalidated). -/
def parseGameState (jp : String → Option Json) : StoredState → Json
  | StoredState.nullv => emptyGameStateJson
  | StoredState.objv j => j
  | StoredState.strv s =>
    if s == "" then emptyGameStateJson
    else
      match jp s with
      | none => emptyGameStateJson
      | some parsed =>
        Json.obj [("playerOrder", Json.arr (playerOrderField parsed)),
                  ("tiles", Json.arr (tilesField parsed))]

def isStrJson : Json → Bool
  | Json.str _ => true
  | _ => false

/-- The shape the claim asserts of every `parseGameState` result: a
`playerOrder` field that is an array of strings and a `tiles` field
that is an array. -/
def wellFormedGameState (j : Json) : Bool :=
  match j with
  | Json.obj fields =>
    (match jsLookup fields "playerOrder" with
     | some (Json.arr items) => items.all isStrJson
     | _ => false) &&
    (match jsLookup fields "tiles" with
     | some (Json.arr _) => true
     | _ => false)
  | _ => false

/-! ## Concrete stores used to instantiate the claims -/

/-- A randomness source that always draws 0. -/
def rand0 : Nat → Nat := fun _ => 0

def storeC1 : Store :=
  ⟨[⟨1, "Friday Night", "123456", "a@x.com", GameStatus.not_started, ⟨["a@x.com"], []⟩⟩],
   [⟨1, 1, "a@x.com", GamePlayerStatus.admin, true⟩], 2, 2⟩

def storeC2 : Store :=
  ⟨[⟨1, "Friday Night", "123456", "a@x.com", GameStatus.not_started, ⟨["a@x.com"], []⟩⟩],
   [⟨1, 1, "a@x.com", GamePlayerStatus.admin, true⟩,
    ⟨2, 1, "b@x.com", GamePlayerStatus.confirmed, false⟩], 2, 3⟩

def storeC3 : Store :=
  ⟨[⟨1, "Friday Night", "123456", "a@x.com", GameStatus.not_started, ⟨["a@x.com"], []⟩⟩],
   [⟨1, 1, "a@x.com", GamePlayerStatus.admin, true⟩], 2, 2⟩

def storeC4 : Store :=
  ⟨[⟨1, "Friday Night", "123456", "a@x.com", GameStatus.not_started, ⟨["a@x.com"], []⟩⟩],
   [⟨1, 1, "a@x.com", GamePlayerStatus.admin, true⟩,
    ⟨2, 1, "b@x.com", GamePlayerStatus.confirmed, false⟩], 2, 3⟩

def storeC5 : Store :=
  ⟨[⟨1, "Friday Night", "123456", "a@x.com", GameStatus.not_started, ⟨["a@x.com"], []⟩⟩],
   [⟨1, 1, "a@x.com", GamePlayerStatus.admin, true⟩], 2, 2⟩

def storeC6 : Store :=
  ⟨[⟨1, "Friday Night", "123456", "a@x.com", GameStatus.not_started, ⟨["a@x.com"], []⟩⟩,
    ⟨2, "Saturday", "654321", "a@x.com", GameStatus.not_started, ⟨["a@x.com"], []⟩⟩],
   [⟨1, 1, "a@x.com", GamePlayerStatus.admin, false⟩,
    ⟨2, 2, "a@x.com", GamePlayerStatus.admin, true⟩], 3, 3⟩

def storeC7 : Store := ⟨[], [], 1, 1⟩

def storeC8 : Store :=
  ⟨[⟨1, "Friday Night", "123456", "a@x.com", GameStatus.finished, ⟨["a@x.com"], []⟩⟩],
   [⟨1, 1, "a@x.com", GamePlayerStatus.admin, true⟩], 2, 2⟩

def storeC10 : Store :=
  ⟨[⟨1, "Friday Night", "123456", "a@x.com", GameStatus.not_started, ⟨["a@x.com"], []⟩⟩],
   [⟨1, 1, "a@x.com", GamePlayerStatus.admin, false⟩,
    ⟨2, 1, "b@x.com", GamePlayerStatus.confirmed, true⟩], 2, 3⟩

/-! # Theorems

## Decimal rendering and join-code lemmas -/

theorem natDigitsAux_eq_digits (fuel : Nat) :
    ∀ n, n ≤ fuel → natDigitsAux fuel n = Nat.digits 10 n := by
  induction fuel with
  | zero =>
    intro n h
    interval_cases n
    simp [natDigitsAux]
  | succ fuel ih =>
    intro n h
    match n with
    | 0 => simp [natDigitsAux]
    | n + 1 =>
      rw [Nat.digits_def' (by norm_num : (1 : Nat) < 10) (Nat.succ_pos n)]
      show (n + 1) % 10 :: natDigitsAux fuel ((n + 1) / 10) =
        (n + 1) % 10 :: Nat.digits 10 ((n + 1) / 10)
      congr 1
      apply ih
      have := Nat.div_lt_self (Nat.succ_pos n) (by norm_num : 1 < 10)
      omega

theorem natDigits_eq (n : Nat) : natDigits n = Nat.digits 10 n :=
  natDigitsAux_eq_digits n n le_rfl

theorem renderNat_eq (n : Nat) (hn : n ≠ 0) :
    renderNat n = String.mk ((Nat.digits 10 n).reverse.map digitChar) := by
  simp [renderNat, natDigits_eq, hn]

theorem string_mk_length (l : List Char) : (String.mk l).length = l.length := rfl

theorem string_mk_data (l : List Char) : (String.mk l).data = l := rfl

theorem digitChar_isDigit {d : Nat} (h : d < 10) : (digitChar d).isDigit = true := by
  interval_cases d <;> decide

theorem renderNat_length_six {n : Nat} (h1 : 100000 ≤ n) (h2 : n ≤ 999999) :
    (renderNat n).length = 6 := by
  have hn : n ≠ 0 := by omega
  rw [renderNat_eq n hn, string_mk_length, List.length_map, List.length_reverse,
    Nat.digits_len 10 n (by norm_num) hn]
  have e5 : (10 : Nat) ^ 5 = 100000 := by norm_num
  have e6 : (10 : Nat) ^ (5 + 1) = 1000000 := by norm_num
  have hlog : Nat.log 10 n = 5 :=
    Nat.log_eq_of_pow_le_of_lt_pow (by rw [e5]; omega) (by rw [e6]; omega)
  rw [hlog]

theorem renderNat_all_digits {n : Nat} (hn : n ≠ 0) :
    ∀ c ∈ (renderNat n).data, c.isDigit = true := by
  rw [renderNat_eq n hn, string_mk_data]
  intro c hc
  obtain ⟨d, hd, rfl⟩ := List.mem_map.mp hc
  exact digitChar_isDigit (Nat.digits_lt_base (by norm_num) (List.mem_reverse.mp hd))

theorem joinCodeNat_range (r : Nat) : 100000 ≤ joinCodeNat r ∧ joinCodeNat r ≤ 999999 := by
  unfold joinCodeNat
  have := Nat.mod_lt r (show 0 < 900000 by norm_num)
  omega

theorem gameHasCode_false {s : Store} {code : String} (h : gameHasCode s code = false) :
    ∀ g ∈ s.games, g.joinCode ≠ code := by
  intro g hg he
  unfold gameHasCode at h
  rw [List.any_eq_false] at h
  exact h g hg (by simp [he])

theorem genLoop_some (s : Store) (rand : Nat → Nat) :
    ∀ fuel attempt code, generateJoinCodeLoop s rand attempt fuel = some code →
      gameHasCode s code = false ∧ ∃ a, code = renderNat (joinCodeNat (rand a)) := by
  intro fuel
  induction fuel with
  | zero => intro attempt code h; simp [generateJoinCodeLoop] at h
  | succ fuel ih =>
    intro attempt code h
    rw [generateJoinCodeLoop] at h
    split at h
    · exact ih (attempt + 1) code h
    · cases h
      exact ⟨Bool.not_eq_true _ ▸ (by assumption), attempt, rfl⟩

theorem genLoop_none (s : Store) (rand : Nat → Nat) :
    ∀ fuel attempt,
      (∀ a, attempt ≤ a → a < attempt + fuel →
        gameHasCode s (renderNat (joinCodeNat (rand a))) = true) →
      generateJoinCodeLoop s rand attempt fuel = none := by
  intro fuel
  induction fuel with
  | zero => intro attempt _; rfl
  | succ fuel ih =>
    intro attempt h
    rw [generateJoinCodeLoop, if_pos (h attempt le_rfl (by omega))]
    exact ih (attempt + 1) fun a h1 h2 => h a (by omega) (by omega)

/-- The properties of a successfully generated join code, shared by the
join-code claim and the session-creation claim. -/
theorem generateJoinCode_spec {s : Store} {rand : Nat → Nat} {code : String}
    (h : generateJoinCode s rand = some code) :
    code.length = 6 ∧ (∀ c ∈ code.data, c.isDigit = true) ∧
      ∀ g ∈ s.games, g.joinCode ≠ code := by
  obtain ⟨hfresh, a, rfl⟩ := genLoop_some s rand 10 0 code h
  obtain ⟨hlo, hhi⟩ := joinCodeNat_range (rand a)
  exact ⟨renderNat_length_six hlo hhi, renderNat_all_digits (by omega),
    gameHasCode_false hfresh⟩

/-! ## C3: the join-code generator -/

/-- C3 (amended): every successfully generated join code is exactly 6
ASCII digits and differs from the join code of every existing session;
the candidate of each draw is uniform over the numeric range
`[100000, 999999]` (the draw map is a bijection from the 900000 raw
draws onto that range — strings with leading zeros are never drawn);
the draw is retried up to 10 attempts, and if all 10 attempts collide
with existing codes the operation fails (none) instead of returning a
code. -/
theorem C3_generateJoinCode (s : Store) (rand : Nat → Nat) :
    (∀ code, generateJoinCode s rand = some code →
      code.length = 6 ∧ (∀ c ∈ code.data, c.isDigit = true) ∧
        ∀ g ∈ s.games, g.joinCode ≠ code) ∧
    ((∀ a, a < 10 → gameHasCode s (renderNat (joinCodeNat (rand a))) = true) →
      generateJoinCode s rand = none) ∧
    (∀ r : Nat, 100000 ≤ joinCodeNat r ∧ joinCodeNat r ≤ 999999) ∧
    (∀ n : Nat, 100000 ≤ n → n ≤ 999999 → ∃ r, r < 900000 ∧ joinCodeNat r = n) ∧
    (∀ r1 r2 : Nat, r1 < 900000 → r2 < 900000 → joinCodeNat r1 = joinCodeNat r2 →
      r1 = r2) := by
  refine ⟨fun code h => generateJoinCode_spec h, fun h => ?_, joinCodeNat_range,
    fun n h1 h2 => ?_, fun r1 r2 h1 h2 h => ?_⟩
  · exact genLoop_none s rand 10 0 fun a _ ha => h a (by omega)
  · refine ⟨n - 100000, by omega, ?_⟩
    unfold joinCodeNat
    rw [Nat.mod_eq_of_lt (by omega)]
    omega
  · unfold joinCodeNat at h
    rw [Nat.mod_eq_of_lt h1, Nat.mod_eq_of_lt h2] at h
    omega

/-- Witness for C3: on a concrete store with one session (code
`123456`) and a source that always draws 0, the generator returns
`100000`, which is 6 digits and fresh. -/
theorem C3_generateJoinCode_witness :
    "100000".length = 6 ∧ (∀ c ∈ "100000".data, c.isDigit = true) ∧
      ∀ g ∈ storeC3.games, g.joinCode ≠ "100000" :=
  (C3_generateJoinCode storeC3 rand0).1 "100000" (by decide)

/-- Counterexample to C3 as stated: the candidate is not drawn from the
full 6-digit string space with leading zeros allowed — the 6-digit
string `000000` is produced by no draw, since every candidate is at
least 100000 and a positive number renders with a non-zero leading
digit. -/
theorem C3_counterexample :
    ¬ (∀ str : String, isSixDigitString str = true →
        ∃ r : Nat, renderNat (joinCodeNat r) = str) := by
  intro h
  obtain ⟨r, hr⟩ := h "000000" (by decide)
  obtain ⟨hlo, _⟩ := joinCodeNat_range r
  have hn : joinCodeNat r ≠ 0 := by omega
  rw [renderNat_eq _ hn] at hr
  have hdata : ((Nat.digits 10 (joinCodeNat r)).reverse.map digitChar) = "000000".data :=
    congrArg String.data hr
  have hzeros : "000000".data = ['0', '0', '0', '0', '0', '0'] := rfl
  have hz : ∀ d ∈ Nat.digits 10 (joinCodeNat r), d = 0 := by
    intro d hd
    have hd10 : d < 10 := Nat.digits_lt_base (by norm_num) hd
    have hmem : digitChar d ∈ "000000".data := by
      rw [← hdata]
      exact List.mem_map_of_mem _ (List.mem_reverse.mpr hd)
    rw [hzeros] at hmem
    have hchar : digitChar d = '0' := by
      simpa using hmem
    interval_cases d
    · rfl
    all_goals exact absurd hchar (by decide)
  have hne : Nat.digits 10 (joinCodeNat r) ≠ [] :=
    Nat.digits_ne_nil_iff_ne_zero.mpr hn
  exact Nat.getLast_digit_ne_zero 10 hn (hz _ (List.getLast_mem hne))

/-! ## C1: the one-admin-per-session invariant -/

/-- C1 (violated by the code): on a store satisfying the one-admin
invariant, `approvePlayer` invoked with the session admin as target
succeeds, leaves the session in place, and drops the admin count of
that surviving session from one to zero — the update sets the admin
row's role to `confirmed` with no check of the prior role. -/
theorem C1_approve_admin_breaks_invariant :
    adminInvariant storeC1 ∧
    (approvePlayer storeC1 1 "a@x.com" "a@x.com").2.ok = true ∧
    (approvePlayer storeC1 1 "a@x.com" "a@x.com").1.games = storeC1.games ∧
    adminCount (approvePlayer storeC1 1 "a@x.com" "a@x.com").1 1 = 0 := by
  decide

/-! ## C2: `approvePlayer` -/

theorem map_if_eq_self {α : Type} (l : List α) (p : α → Bool) (f : α → α)
    (h : ∀ x ∈ l, p x = false) : (l.map fun x => if p x then f x else x) = l := by
  induction l with
  | nil => rfl
  | cons a l ih =>
    rw [List.map_cons, if_neg (by rw [h a (List.mem_cons_self a l)]; simp),
      ih fun x hx => h x (List.mem_cons_of_mem a hx)]

/-- C2: the full case analysis of `approvePlayer`.  When the caller is
not an admin of the session it fails with the not-authorized message
and the store is unchanged; when the caller is an admin and the target
has no membership row it fails with the not-found message and the store
is unchanged; when the caller is an admin and the target has a row —
whatever its prior role, `admin`, `waiting` or already `confirmed` —
the call succeeds and afterwards every row of the target in the
session has role `confirmed`, the games table being untouched. -/
theorem C2_approvePlayer_cases (s : Store) (gameId : Nat) (target adminEmail : String) :
    (isAdmin s gameId adminEmail = false →
      approvePlayer s gameId target adminEmail = (s, ⟨false, notAdminMsg⟩)) ∧
    (isAdmin s gameId adminEmail = true → getPlayer s gameId target = none →
      approvePlayer s gameId target adminEmail =
        (s, ⟨false, "Player not found for this game."⟩)) ∧
    (isAdmin s gameId adminEmail = true → (getPlayer s gameId target).isSome = true →
      (approvePlayer s gameId target adminEmail).2 = ⟨true, "Player approved."⟩ ∧
      (approvePlayer s gameId target adminEmail).1.games = s.games ∧
      ∀ p ∈ (approvePlayer s gameId target adminEmail).1.players,
        p.gameId = gameId → p.email = target → p.status = GamePlayerStatus.confirmed) := by
  refine ⟨fun h => ?_, fun h1 h2 => ?_, fun h1 h2 => ?_⟩
  · simp [approvePlayer, h]
  · have hfil : s.players.filter
        (fun p => p.gameId == gameId && p.email == target) = [] := by
      unfold getPlayer at h2
      exact List.head?_eq_none_iff.mp h2
    have hnone : ∀ p ∈ s.players, (p.gameId == gameId && p.email == target) = false := by
      intro p hp
      by_contra hne
      have : p ∈ s.players.filter (fun p => p.gameId == gameId && p.email == target) :=
        List.mem_filter.mpr ⟨hp, by revert hne; cases (p.gameId == gameId && p.email == target) <;> simp⟩
      rw [hfil] at this
      exact absurd this (List.not_mem_nil p)
    have hmap : (s.players.map fun p =>
        if p.gameId == gameId && p.email == target then
          { p with status := GamePlayerStatus.confirmed }
        else p) = s.players := map_if_eq_self _ _ _ hnone
    simp only [approvePlayer, h1, Bool.not_true, Bool.false_eq_true, if_false, hfil,
      List.length_nil, hmap]
    cases s
    rfl
  · have hne : s.players.filter
        (fun p => p.gameId == gameId && p.email == target) ≠ [] := by
      intro he
      unfold getPlayer at h2
      rw [he] at h2
      simp at h2
    have hlen : ((s.players.filter
        (fun p => p.gameId == gameId && p.email == target)).length == 0) = false := by
      simp only [beq_eq_false_iff_ne]
      intro hz
      exact hne (List.eq_nil_of_length_eq_zero hz)
    refine ⟨?_, ?_, ?_⟩
    · simp [approvePlayer, h1, hlen]
    · simp [approvePlayer, h1, hlen]
    · intro p hp hpg hpe
      simp only [approvePlayer, h1, Bool.not_true, Bool.false_eq_true, if_false, hlen] at hp
      obtain ⟨q, hq, rfl⟩ := List.mem_map.mp hp
      by_cases hmatch : (q.gameId == gameId && q.email == target) = true
      · simp [hmatch]
      · rw [if_neg (by simp [hmatch])] at hpg hpe ⊢
        exact absurd (by simp [hpg, hpe]) hmatch

/-- Witness for C2: on a concrete session where the target is already
`confirmed`, an admin-issued approve still succeeds (idempotent
upgrade) and leaves the target confirmed. -/
theorem C2_approvePlayer_cases_witness :
    (approvePlayer storeC2 1 "b@x.com" "a@x.com").2 = ⟨true, "Player approved."⟩ ∧
    (approvePlayer storeC2 1 "b@x.com" "a@x.com").1.games = storeC2.games ∧
    ∀ p ∈ (approvePlayer storeC2 1 "b@x.com" "a@x.com").1.players,
      p.gameId = 1 → p.email = "b@x.com" → p.status = GamePlayerStatus.confirmed :=
  (C2_approvePlayer_cases storeC2 1 "b@x.com" "a@x.com").2.2 (by decide) (by decide)

/-! ## C8: session-phase transitions -/

/-- Counterexample to C8 as stated: on a session whose phase is
`finished`, the admin posts `status=started` through the route's
`update-status` intent; the request succeeds and the stored phase moves
directly from `finished` to `started` — nothing in the code restricts
the edges of the phase graph. -/
theorem C8_counterexample :
    Option.map (fun g => g.status) (getGame storeC8 1) = some GameStatus.finished ∧
    (gameActionUpdateStatus storeC8 1 "a@x.com" (some "started")).2.ok = true ∧
    Option.map (fun g => g.status)
      (getGame (gameActionUpdateStatus storeC8 1 "a@x.com" (some "started")).1 1) =
      some GameStatus.started := by
  decide

/-- C8 (amended): `updateGameStatus` lets an admin set the phase to any
of the three statuses from any current phase (the route merely checks
that the posted status is one of the three values and passes it
through); a request from a caller who is not an admin of the session
fails with the not-authorized message and leaves the store unchanged,
and a request for a non-existent session fails with not-found. -/
theorem C8_updateGameStatus (s : Store) (gameId : Nat) (email : String)
    (status : GameStatus) :
    (isAdmin s gameId email = false →
      updateGameStatus s gameId email status = (s, ⟨false, notAdminMsg⟩)) ∧
    (isAdmin s gameId email = true → (getGame s gameId).isSome = false →
      updateGameStatus s gameId email status = (s, ⟨false, "Game not found."⟩)) ∧
    (isAdmin s gameId email = true → (getGame s gameId).isSome = true →
      (updateGameStatus s gameId email status).2.ok = true ∧
      ∀ g ∈ (updateGameStatus s gameId email status).1.games,
        g.id = gameId → g.status = status) ∧
    (∀ st : String, parseStatus st = some status →
      gameActionUpdateStatus s gameId email (some st) =
        updateGameStatus s gameId email status) := by
  refine ⟨fun h => ?_, fun h1 h2 => ?_, fun h1 h2 => ?_, fun st hst => ?_⟩
  · simp [updateGameStatus, h]
  · have hfil : s.games.filter (fun g => g.id == gameId) = [] := by
      unfold getGame at h2
      rw [Bool.eq_false_iff, Ne, Option.isSome_iff_exists] at h2
      push_neg at h2
      apply List.head?_eq_none_iff.mp
      cases he : (s.games.filter (fun g => g.id == gameId)).head? with
      | none => rfl
      | some g => exact absurd he (h2 g)
    simp [updateGameStatus, h1, hfil]
  · have hne : s.games.filter (fun g => g.id == gameId) ≠ [] := by
      intro he
      unfold getGame at h2
      rw [he] at h2
      simp at h2
    have hlen : ((s.games.filter (fun g => g.id == gameId)).length == 0) = false := by
      simp only [beq_eq_false_iff_ne]
      intro hz
      exact hne (List.eq_nil_of_length_eq_zero hz)
    constructor
    · simp [updateGameStatus, h1, hlen]
    · intro g hg hid
      simp only [updateGameStatus, h1, Bool.not_true, Bool.false_eq_true, if_false,
        hlen] at hg
      obtain ⟨q, hq, rfl⟩ := List.mem_map.mp hg
      by_cases hmatch : (q.id == gameId) = true
      · simp [hmatch]
      · rw [if_neg (by simp [hmatch])] at hid ⊢
        exact absurd (by simp [hid]) hmatch
  · simp [gameActionUpdateStatus, hst]

/-- Witness for C8 (amended): the admin of the concrete finished
session sets the phase to `started` and every stored copy of the
session carries the new phase. -/
theorem C8_updateGameStatus_witness :
    (updateGameStatus storeC8 1 "a@x.com" GameStatus.started).2.ok = true ∧
    ∀ g ∈ (updateGameStatus storeC8 1 "a@x.com" GameStatus.started).1.games,
      g.id = 1 → g.status = GameStatus.started :=
  (C8_updateGameStatus storeC8 1 "a@x.com" GameStatus.started).2.2.1 (by decide)
    (by decide)

/-! ## C9: `parseGameState` -/

theorem playerOrderField_all_str (j : Json) :
    ∀ x ∈ playerOrderField j, isStrJson x = true := by
  intro x hx
  unfold playerOrderField at hx
  split at hx
  · split at hx
    · obtain ⟨y, hy, rfl⟩ := List.mem_map.mp hx
      rfl
    · exact absurd hx (List.not_mem_nil x)
  · exact absurd hx (List.not_mem_nil x)

theorem wellFormedGameState_mk (A B : List Json) (h : ∀ x ∈ A, isStrJson x = true) :
    wellFormedGameState
      (Json.obj [("playerOrder", Json.arr A), ("tiles", Json.arr B)]) = true := by
  show (A.all isStrJson && true) = true
  rw [Bool.and_true, List.all_eq_true]
  exact h

/-- C9 (amended): `parseGameState` is total, and on the null value, the
empty string, a string that fails to parse, or a parsed string of any
shape, it returns a value whose `playerOrder` is a list of strings and
whose `tiles` is a list, falling back to the empty
`{ playerOrder: [], tiles: [] }` shape for each malformed part; an
already-materialized object value, however, is returned as-is without
validation. -/
theorem C9_parseGameState (jp : String → Option Json) :
    parseGameState jp StoredState.nullv = emptyGameStateJson ∧
    parseGameState jp (StoredState.strv "") = emptyGameStateJson ∧
    (∀ s, s ≠ "" → jp s = none →
      parseGameState jp (StoredState.strv s) = emptyGameStateJson) ∧
    (∀ s j, s ≠ "" → jp s = some j →
      parseGameState jp (StoredState.strv s) =
        Json.obj [("playerOrder", Json.arr (playerOrderField j)),
                  ("tiles", Json.arr (tilesField j))] ∧
      wellFormedGameState (parseGameState jp (StoredState.strv s)) = true) ∧
    (∀ j, parseGameState jp (StoredState.objv j) = j) ∧
    wellFormedGameState emptyGameStateJson = true := by
  refine ⟨rfl, rfl, fun s hs hjp => ?_, fun s j hs hjp => ?_, fun j => rfl, rfl⟩
  · simp [parseGameState, beq_eq_false_iff_ne.mpr hs, hjp]
  · have he : parseGameState jp (StoredState.strv s) =
        Json.obj [("playerOrder", Json.arr (playerOrderField j)),
                  ("tiles", Json.arr (tilesField j))] := by
      simp [parseGameState, beq_eq_false_iff_ne.mpr hs, hjp]
    exact ⟨he, he ▸ wellFormedGameState_mk _ _ (playerOrderField_all_str j)⟩

/-- Witness for C9 (amended): a non-empty string that fails to parse
falls back to the empty game-state shape. -/
theorem C9_parseGameState_witness :
    parseGameState (fun _ => none) (StoredState.strv "oops") = emptyGameStateJson :=
  (C9_parseGameState (fun _ => none)).2.2.1 "oops" (by decide) rfl

/-- Counterexample to C9 as stated: an already-materialized object value
of shape `{}` (the default the migration gives the JSON column) is
passed through unvalidated, so the result has neither a string-list
`playerOrder` nor a list `tiles` — the claimed well-formed fallback
does not apply to malformed object inputs. -/
theorem C9_counterexample :
    wellFormedGameState
      (parseGameState (fun _ => none) (StoredState.objv (Json.obj []))) = false := rfl

/-! ## C10: `leaveGame` / `removePlayer` never touch the current flag -/

theorem currentRows_filter_players (s : Store) (email : String) (pred : GamePlayer → Bool) :
    currentRows { s with players := s.players.filter pred } email =
      (currentRows s email).filter pred := by
  unfold currentRows
  rw [List.filter_filter, List.filter_filter]
  exact List.filter_congr fun q _ => by rw [Bool.and_comm]

/-- C10: `leaveGame` and `removePlayer` delete exactly the target's
membership row (by its row id) and leave every other row — in
particular every `isCurrent` flag — untouched; consequently, when the
deleted row was the member's only current row, the member is left with
zero current rows across all sessions. -/
theorem C10_leave_remove_frame (s : Store) (gameId : Nat)
    (email targetEmail adminEmail : String) :
    (∀ p, getPlayer s gameId email = some p → p.status ≠ GamePlayerStatus.admin →
      (leaveGame s gameId email).2.ok = true ∧
      (leaveGame s gameId email).1.games = s.games ∧
      (leaveGame s gameId email).1.players = s.players.filter (fun q => !(q.id == p.id)) ∧
      (∀ q ∈ (leaveGame s gameId email).1.players, q ∈ s.players) ∧
      ((∀ q ∈ currentRows s email, q.id = p.id) →
        currentRows (leaveGame s gameId email).1 email = [])) ∧
    (isAdmin s gameId adminEmail = true →
      ∀ p, getPlayer s gameId targetEmail = some p →
        p.status ≠ GamePlayerStatus.admin →
        (removePlayer s gameId targetEmail adminEmail).2.ok = true ∧
        (removePlayer s gameId targetEmail adminEmail).1.games = s.games ∧
        (removePlayer s gameId targetEmail adminEmail).1.players =
          s.players.filter (fun q => !(q.id == p.id)) ∧
        (∀ q ∈ (removePlayer s gameId targetEmail adminEmail).1.players, q ∈ s.players) ∧
        ((∀ q ∈ currentRows s targetEmail, q.id = p.id) →
          currentRows (removePlayer s gameId targetEmail adminEmail).1 targetEmail = [])) := by
  constructor
  · intro p hp hst
    have hbeq : (p.status == GamePlayerStatus.admin) = false := beq_eq_false_iff_ne.mpr hst
    simp only [leaveGame, hp, hbeq, Bool.false_eq_true, if_false]
    refine ⟨trivial, trivial, trivial, fun q hq => List.mem_of_mem_filter hq, fun hall => ?_⟩
    rw [currentRows_filter_players, List.filter_eq_nil_iff]
    intro q hq
    simp [hall q hq]
  · intro hadm p hp hst
    have hbeq : (p.status == GamePlayerStatus.admin) = false := beq_eq_false_iff_ne.mpr hst
    simp only [removePlayer, hadm, Bool.not_true, Bool.false_eq_true, if_false, hp, hbeq]
    refine ⟨trivial, trivial, trivial, fun q hq => List.mem_of_mem_filter hq, fun hall => ?_⟩
    rw [currentRows_filter_players, List.filter_eq_nil_iff]
    intro q hq
    simp [hall q hq]

/-- Witness for C10: in the concrete store, b@x.com's only current row
is their membership in session 1; after leaving the session the member
has zero current rows, and after the admin removes them likewise. -/
theorem C10_leave_remove_frame_witness :
    ((leaveGame storeC10 1 "b@x.com").2.ok = true ∧
      currentRows (leaveGame storeC10 1 "b@x.com").1 "b@x.com" = []) ∧
    ((removePlayer storeC10 1 "b@x.com" "a@x.com").2.ok = true ∧
      currentRows (removePlayer storeC10 1 "b@x.com" "a@x.com").1 "b@x.com" = []) := by
  have h := C10_leave_remove_frame storeC10 1 "b@x.com" "b@x.com" "a@x.com"
  have h1 := h.1 ⟨2, 1, "b@x.com", GamePlayerStatus.confirmed, true⟩ (by decide) (by decide)
  have h2 := h.2 (by decide) ⟨2, 1, "b@x.com", GamePlayerStatus.confirmed, true⟩
    (by decide) (by decide)
  exact ⟨⟨h1.1, h1.2.2.2.2 (by decide)⟩, ⟨h2.1, h2.2.2.2.2 (by decide)⟩⟩

/-! ## C6: `setCurrentGameForUser` and the single-current invariant -/

theorem length_le_one_of_nodup_const {α : Type} {l : List α} {a : α}
    (hnd : l.Nodup) (h : ∀ x ∈ l, x = a) : l.length ≤ 1 := by
  match l, hnd, h with
  | [], _, _ => simp
  | [x], _, _ => simp
  | x :: y :: t, hnd, h =>
    exfalso
    have hx := h x (by simp)
    have hy := h y (by simp)
    rw [List.nodup_cons] at hnd
    subst hx
    exact hnd.1 (hy ▸ List.mem_cons_self y t)

/-- C6: when the member has no row in the targeted session,
`setCurrentGameForUser` fails and leaves the store unchanged.  When the
member has a row there (and membership keys are unique, as the schema's
uniqueness constraint guarantees), the call succeeds; it rewrites only
the member's own rows (every row of another member is passed through
unchanged, and the (session, member) key sequence is untouched), and
afterwards a row of the member carries the current flag exactly when it
belongs to the targeted session — so the member has exactly one current
row across all sessions, whatever flags were set before.  Since this
postcondition is independent of the prior flags, it also holds after
any sequence of successful calls. -/
theorem C6_setCurrentGameForUser (s : Store) (gameId : Nat) (email : String)
    (hkeys : (s.players.map fun p => (p.gameId, p.email)).Nodup) :
    (getPlayer s gameId email = none →
      setCurrentGameForUser s gameId email =
        (s, ⟨false, "You are not part of this game."⟩)) ∧
    (∀ p0, getPlayer s gameId email = some p0 →
      (setCurrentGameForUser s gameId email).2 = ⟨true, "Current game updated."⟩ ∧
      ((setCurrentGameForUser s gameId email).1.players.map fun p => (p.gameId, p.email)) =
        (s.players.map fun p => (p.gameId, p.email)) ∧
      (∀ p ∈ (setCurrentGameForUser s gameId email).1.players,
        p.email = email → (p.isCurrent = true ↔ p.gameId = gameId)) ∧
      (∀ p ∈ (setCurrentGameForUser s gameId email).1.players,
        p.email ≠ email → p ∈ s.players) ∧
      (currentRows (setCurrentGameForUser s gameId email).1 email).length = 1) := by
  constructor
  · intro h
    simp [setCurrentGameForUser, h]
  · intro p0 hp0
    refine ⟨by simp [setCurrentGameForUser, hp0], ?_, ?_, ?_, ?_⟩
    · simp only [setCurrentGameForUser, hp0, List.map_map]
      apply List.map_congr_left
      intro q _
      by_cases h1 : (q.email == email) = true <;>
        by_cases h2 : (q.gameId == gameId) = true <;>
          simp [Function.comp, h1, h2]
    · intro p hp hpe
      simp only [setCurrentGameForUser, hp0, List.map_map] at hp
      obtain ⟨q, hq, rfl⟩ := List.mem_map.mp hp
      by_cases h1 : (q.email == email) = true
      · by_cases h2 : (q.gameId == gameId) = true
        · simp [Function.comp, h1, h2, beq_iff_eq.mp h2]
        · simp only [Function.comp, h1, h2, Bool.false_and, Bool.and_false,
            if_true, if_false, Bool.false_eq_true]
          simp [Function.comp, h1, h2]
          exact fun hg => h2 (beq_iff_eq.mpr hg)
      · have hqq : ((fun p : GamePlayer =>
            if p.gameId == gameId && p.email == email then
              { p with isCurrent := true } else p) ∘
            (fun p : GamePlayer =>
              if p.email == email then { p with isCurrent := false } else p)) q = q := by
          simp [Function.comp, h1]
        rw [hqq] at hpe
        exact absurd (beq_iff_eq.mpr hpe) h1
    · intro p hp hpe
      simp only [setCurrentGameForUser, hp0, List.map_map] at hp
      obtain ⟨q, hq, rfl⟩ := List.mem_map.mp hp
      by_cases h1 : (q.email == email) = true
      · exfalso
        apply hpe
        by_cases h2 : (q.gameId == gameId) = true <;>
          simp [Function.comp, h1, h2, beq_iff_eq.mp h1]
      · simpa [Function.comp, h1] using hq
    · simp only [setCurrentGameForUser, hp0, currentRows, List.map_map,
        List.filter_map, List.length_map]
      have hcong : (s.players.filter fun q =>
          ((fun p : GamePlayer => p.email == email && p.isCurrent) ∘
            ((fun p : GamePlayer => if p.gameId == gameId && p.email == email then
                { p with isCurrent := true } else p) ∘
             (fun p : GamePlayer =>
                if p.email == email then { p with isCurrent := false } else p))) q) =
          s.players.filter fun q => q.gameId == gameId && q.email == email := by
        apply List.filter_congr
        intro q _
        by_cases h1 : (q.email == email) = true <;>
          by_cases h2 : (q.gameId == gameId) = true <;>
            simp [Function.comp, h1, h2]
      rw [hcong]
      have hmem : p0 ∈ s.players.filter fun q => q.gameId == gameId && q.email == email := by
        apply List.mem_of_mem_head?
        rw [Option.mem_def]
        exact hp0
      have hge : 1 ≤ (s.players.filter fun q =>
          q.gameId == gameId && q.email == email).length :=
        List.length_pos_of_mem hmem
      have hsub : ((s.players.filter fun q =>
          q.gameId == gameId && q.email == email).map fun p => (p.gameId, p.email)).Nodup :=
        List.Nodup.sublist (List.Sublist.map _ (List.filter_sublist s.players)) hkeys
      have hconst : ∀ x ∈ (s.players.filter fun q =>
          q.gameId == gameId && q.email == email).map fun p => (p.gameId, p.email),
          x = (gameId, email) := by
        intro x hx
        obtain ⟨q, hq, rfl⟩ := List.mem_map.mp hx
        obtain ⟨-, hcond⟩ := List.mem_filter.mp hq
        obtain ⟨hA, hB⟩ := Bool.and_eq_true_iff.mp hcond
        exact Prod.ext (beq_iff_eq.mp hA) (beq_iff_eq.mp hB)
      have hle := length_le_one_of_nodup_const hsub hconst
      rw [List.length_map] at hle
      omega

/-- Witness for C6: on the concrete store where a@x.com's current
session is session 2, switching to session 1 succeeds and leaves
exactly one current row. -/
theorem C6_setCurrentGameForUser_witness :
    (setCurrentGameForUser storeC6 1 "a@x.com").2 = ⟨true, "Current game updated."⟩ ∧
    (currentRows (setCurrentGameForUser storeC6 1 "a@x.com").1 "a@x.com").length = 1 := by
  have h := (C6_setCurrentGameForUser storeC6 1 "a@x.com" (by decide)).2
    ⟨1, 1, "a@x.com", GamePlayerStatus.admin, false⟩ (by decide)
  exact ⟨h.1, h.2.2.2.2⟩

/-! ## C7: `createGame` -/

/-- C7: whenever join-code generation succeeds (and the auto-increment
id of the new session is fresh, as auto-increment guarantees),
`createGame` produces a session with phase `not_started`, turn order
`[creator]`, no tiles, and a join code different from that of every
existing session; the new session has exactly one membership row, whose
member is the creator with role `admin`, and that row's current flag is
set iff the creator had no current row anywhere before the call. -/
theorem C7_createGame (s : Store) (rand : Nat → Nat) (name creator : String)
    (hfreshG : ∀ g ∈ s.games, g.id ≠ s.nextGameId)
    (hfreshP : ∀ p ∈ s.players, p.gameId ≠ s.nextGameId) :
    ∀ s1 game, createGame s rand name creator = some (s1, game) →
      game.status = GameStatus.not_started ∧
      game.gameState.playerOrder = [creator] ∧
      game.gameState.tiles = [] ∧
      game.name = name ∧
      game.createdBy = creator ∧
      (∀ g ∈ s.games, g.joinCode ≠ game.joinCode) ∧
      getGame s1 game.id = some game ∧
      (playersOf s1 game.id).length = 1 ∧
      ∀ p ∈ playersOf s1 game.id,
        p.email = creator ∧ p.status = GamePlayerStatus.admin ∧
        (p.isCurrent = true ↔ currentRows s creator = []) := by
  intro s1 game h
  cases hjc : generateJoinCode s rand with
  | none => rw [createGame, hjc] at h; cases h
  | some code =>
    rw [createGame, hjc] at h
    simp only [Option.some.injEq, Prod.mk.injEq] at h
    obtain ⟨hs1, hgame⟩ := h
    subst hs1
    subst hgame
    have hfilG : s.games.filter (fun g => g.id == s.nextGameId) = [] := by
      rw [List.filter_eq_nil_iff]
      intro g hg
      simpa using hfreshG g hg
    have hfilP : s.players.filter (fun p => p.gameId == s.nextGameId) = [] := by
      rw [List.filter_eq_nil_iff]
      intro p hp
      simpa using hfreshP p hp
    refine ⟨rfl, rfl, rfl, rfl, rfl, ?_, ?_, ?_, ?_⟩
    · intro g hg
      exact (generateJoinCode_spec hjc).2.2 g hg
    · show ((s.games ++ [_]).filter fun g : Game => g.id == s.nextGameId).head? = _
      rw [List.filter_append, hfilG]
      simp
    · show ((s.players ++ [_]).filter fun p : GamePlayer =>
        p.gameId == s.nextGameId).length = 1
      rw [List.filter_append, hfilP]
      simp
    · intro p hp
      unfold playersOf at hp
      rw [List.filter_append, hfilP] at hp
      simp only [List.nil_append] at hp
      have hrow : p = ⟨s.nextPlayerId, s.nextGameId, creator, GamePlayerStatus.admin,
          !(s.players.any fun q => q.email == creator && q.isCurrent)⟩ := by
        have := List.mem_filter.mp hp
        simpa using this.1
      subst hrow
      refine ⟨rfl, rfl, ?_⟩
      unfold currentRows
      constructor
      · intro hcur
        rw [Bool.not_eq_true'] at hcur
        exact List.filter_eq_nil_iff.mpr (List.any_eq_false.mp hcur)
      · intro hnil
        rw [Bool.not_eq_true']
        exact List.any_eq_false.mpr (List.filter_eq_nil_iff.mp hnil)

/-- Witness for C7: creating a session in the empty store with a source
that draws 0 yields the session with join code `100000`, one admin
membership for the creator, and the current flag set. -/
theorem C7_createGame_witness :
    (⟨1, "Friday Night", "100000", "a@x.com", GameStatus.not_started,
        ⟨["a@x.com"], []⟩⟩ : Game).status = GameStatus.not_started ∧
    (⟨1, "Friday Night", "100000", "a@x.com", GameStatus.not_started,
        ⟨["a@x.com"], []⟩⟩ : Game).gameState.playerOrder = ["a@x.com"] ∧
    (⟨1, "Friday Night", "100000", "a@x.com", GameStatus.not_started,
        ⟨["a@x.com"], []⟩⟩ : Game).gameState.tiles = [] ∧
    (⟨1, "Friday Night", "100000", "a@x.com", GameStatus.not_started,
        ⟨["a@x.com"], []⟩⟩ : Game).name = "Friday Night" ∧
    (⟨1, "Friday Night", "100000", "a@x.com", GameStatus.not_started,
        ⟨["a@x.com"], []⟩⟩ : Game).createdBy = "a@x.com" ∧
    (∀ g ∈ storeC7.games, g.joinCode ≠ "100000") ∧
    getGame ⟨[⟨1, "Friday Night", "100000", "a@x.com", GameStatus.not_started,
        ⟨["a@x.com"], []⟩⟩], [⟨1, 1, "a@x.com", GamePlayerStatus.admin, true⟩], 2, 2⟩ 1 =
      some ⟨1, "Friday Night", "100000", "a@x.com", GameStatus.not_started,
        ⟨["a@x.com"], []⟩⟩ ∧
    (playersOf ⟨[⟨1, "Friday Night", "100000", "a@x.com", GameStatus.not_started,
        ⟨["a@x.com"], []⟩⟩], [⟨1, 1, "a@x.com", GamePlayerStatus.admin, true⟩], 2, 2⟩ 1).length = 1 ∧
    ∀ p ∈ playersOf ⟨[⟨1, "Friday Night", "100000", "a@x.com", GameStatus.not_started,
        ⟨["a@x.com"], []⟩⟩], [⟨1, 1, "a@x.com", GamePlayerStatus.admin, true⟩], 2, 2⟩ 1,
      p.email = "a@x.com" ∧ p.status = GamePlayerStatus.admin ∧
      (p.isCurrent = true ↔ currentRows storeC7 "a@x.com" = []) := by
  have h := C7_createGame storeC7 rand0 "Friday Night" "a@x.com"
    (by decide) (by decide)
    ⟨[⟨1, "Friday Night", "100000", "a@x.com", GameStatus.not_started, ⟨["a@x.com"], []⟩⟩],
     [⟨1, 1, "a@x.com", GamePlayerStatus.admin, true⟩], 2, 2⟩
    ⟨1, "Friday Night", "100000", "a@x.com", GameStatus.not_started, ⟨["a@x.com"], []⟩⟩
    (by decide)
  exact h

/-! ## C4: `reorderPlayerOrder` -/

theorem mem_appendMissing_left (x : String) :
    ∀ (l cleaned : List String), x ∈ cleaned → x ∈ appendMissing cleaned l := by
  intro l
  induction l with
  | nil => intro cleaned h; exact h
  | cons e rest ih =>
    intro cleaned h
    unfold appendMissing
    split
    · exact ih cleaned h
    · exact ih (cleaned ++ [e]) (List.mem_append_left _ h)

theorem mem_appendMissing_right (x : String) :
    ∀ (l cleaned : List String), x ∈ l → x ∈ appendMissing cleaned l := by
  intro l
  induction l with
  | nil => intro cleaned h; exact absurd h (List.not_mem_nil x)
  | cons e rest ih =>
    intro cleaned h
    unfold appendMissing
    rcases List.mem_cons.mp h with rfl | hrest
    · split
      · next hc => exact mem_appendMissing_left x rest cleaned (List.mem_of_elem_eq_true hc)
      · exact mem_appendMissing_left x rest (cleaned ++ [x])
          (List.mem_append_right _ (List.mem_singleton.mpr rfl))
    · split
      · exact ih cleaned hrest
      · exact ih (cleaned ++ [e]) hrest

theorem mem_of_mem_appendMissing (x : String) :
    ∀ (l cleaned : List String), x ∈ appendMissing cleaned l → x ∈ cleaned ∨ x ∈ l := by
  intro l
  induction l with
  | nil => intro cleaned h; exact Or.inl h
  | cons e rest ih =>
    intro cleaned h
    unfold appendMissing at h
    split at h
    · rcases ih cleaned h with hc | hr
      · exact Or.inl hc
      · exact Or.inr (List.mem_cons_of_mem e hr)
    · rcases ih (cleaned ++ [e]) h with hc | hr
      · rcases List.mem_append.mp hc with hc1 | hc2
        · exact Or.inl hc1
        · exact Or.inr (List.mem_cons.mpr (Or.inl (List.mem_singleton.mp hc2)))
      · exact Or.inr (List.mem_cons_of_mem e hr)

/-- Every eligible email occurs in the normalized order, and every entry
of the normalized order is an eligible email. -/
theorem normalizePlayerOrder_mem (currentOrder confirmedEmails : List String) :
    (∀ e ∈ confirmedEmails, e ∈ normalizePlayerOrder currentOrder confirmedEmails) ∧
    (∀ x ∈ normalizePlayerOrder currentOrder confirmedEmails, x ∈ confirmedEmails) := by
  constructor
  · intro e he
    exact mem_appendMissing_right e confirmedEmails _ he
  · intro x hx
    rcases mem_of_mem_appendMissing x confirmedEmails _ hx with hc | hr
    · have := (List.mem_filter.mp hc).2
      exact List.mem_of_elem_eq_true this
    · exact hr

/-- With a duplicate-free eligible set, the normalized order is a
permutation of the eligible set exactly when it has the same length. -/
theorem normalizePlayerOrder_perm_iff_length (currentOrder confirmedEmails : List String)
    (hnd : confirmedEmails.Nodup) :
    (normalizePlayerOrder currentOrder confirmedEmails).Perm confirmedEmails ↔
      (normalizePlayerOrder currentOrder confirmedEmails).length =
        confirmedEmails.length := by
  constructor
  · exact fun h => h.length_eq
  · intro hlen
    have hsub : confirmedEmails.Subperm (normalizePlayerOrder currentOrder confirmedEmails) :=
      List.Nodup.subperm hnd fun e he =>
        (normalizePlayerOrder_mem currentOrder confirmedEmails).1 e he
    exact (List.Subperm.perm_of_length_le hsub (le_of_eq hlen)).symm

theorem getGame_saveGameState (s : Store) (gameId : Nat) (st : GameState) (game : Game)
    (h : getGame s gameId = some game) :
    getGame (saveGameState s gameId st) gameId = some { game with gameState := st } := by
  unfold getGame saveGameState
  show ((s.games.map fun g => if g.id == gameId then { g with gameState := st } else g).filter
    fun g : Game => g.id == gameId).head? = _
  rw [List.filter_map]
  have hcong : (s.games.filter ((fun g : Game => g.id == gameId) ∘
      (fun g => if g.id == gameId then { g with gameState := st } else g))) =
      s.games.filter (fun g => g.id == gameId) := by
    apply List.filter_congr
    intro g _
    by_cases hg : (g.id == gameId) = true <;> simp [Function.comp, hg]
  rw [hcong, List.head?_map]
  unfold getGame at h
  rw [h]
  have hid : (game.id == gameId) = true := by
    have hmem := List.mem_of_mem_head? (Option.mem_def.mpr h)
    exact (List.mem_filter.mp hmem).2
  have hid2 : game.id = gameId := beq_iff_eq.mp hid
  simp [hid2]

/-- C4: `reorderPlayerOrder` succeeds exactly when the session exists
with phase `not_started`, the caller is an admin, and the proposed
order after normalization (filter to the admin+confirmed set, append
the missing eligible members) is a permutation of exactly the
admin+confirmed members (the eligible set is duplicate-free by the
schema's row uniqueness, hypothesis `hnd`); on any failure the store —
in particular the stored turn order — is unchanged, and on success the
stored turn order of the session becomes the normalized order. -/
theorem C4_reorderPlayerOrder (s : Store) (gameId : Nat) (adminEmail : String)
    (newOrder : List String) (hnd : (eligibleEmails s gameId).Nodup) :
    ((reorderPlayerOrder s gameId adminEmail newOrder).2.ok = true ↔
      (∃ game, getGame s gameId = some game ∧ game.status = GameStatus.not_started) ∧
      isAdmin s gameId adminEmail = true ∧
      (normalizePlayerOrder newOrder (eligibleEmails s gameId)).Perm
        (eligibleEmails s gameId)) ∧
    ((reorderPlayerOrder s gameId adminEmail newOrder).2.ok = false →
      (reorderPlayerOrder s gameId adminEmail newOrder).1 = s) ∧
    ((reorderPlayerOrder s gameId adminEmail newOrder).2.ok = true →
      ∀ game, getGame s gameId = some game →
        getGame (reorderPlayerOrder s gameId adminEmail newOrder).1 gameId =
          some { game with gameState :=
            { game.gameState with playerOrder :=
                normalizePlayerOrder newOrder (eligibleEmails s gameId) } }) := by
  cases hg : getGame s gameId with
  | none =>
    have hres : reorderPlayerOrder s gameId adminEmail newOrder =
        (s, ⟨false, "Game not found."⟩) := by
      simp [reorderPlayerOrder, hg]
    rw [hres]
    refine ⟨?_, fun _ => rfl, ?_⟩
    · constructor
      · intro h; cases h
      · rintro ⟨⟨game, hgame, -⟩, -, -⟩; cases hgame
    · intro hok; cases hok
  | some game =>
    by_cases hphase : (game.status == GameStatus.not_started) = true
    · by_cases hadm : isAdmin s gameId adminEmail = true
      · have hany : ((eligibleEmails s gameId).any fun email =>
            !((normalizePlayerOrder newOrder (eligibleEmails s gameId)).contains email)) =
            false := by
          rw [List.any_eq_false]
          intro e he
          rw [Bool.not_eq_true, Bool.not_eq_false']
          exact List.elem_eq_true_of_mem
            ((normalizePlayerOrder_mem newOrder (eligibleEmails s gameId)).1 e he)
        by_cases hlen : (normalizePlayerOrder newOrder (eligibleEmails s gameId)).length =
            (eligibleEmails s gameId).length
        · have hcond : (((normalizePlayerOrder newOrder (eligibleEmails s gameId)).length !=
              (eligibleEmails s gameId).length) ||
              ((eligibleEmails s gameId).any fun email =>
                !((normalizePlayerOrder newOrder (eligibleEmails s gameId)).contains email))) =
              false := by
            rw [hany, Bool.or_false, bne_eq_false_iff_eq]
            exact hlen
          have hres : reorderPlayerOrder s gameId adminEmail newOrder =
              (saveGameState s gameId
                { game.gameState with playerOrder :=
                    normalizePlayerOrder newOrder (eligibleEmails s gameId) },
               ⟨true, "Player order updated."⟩) := by
            simp only [reorderPlayerOrder, hg, hphase, Bool.not_true, Bool.false_eq_true,
              if_false, hadm, hcond]
          rw [hres]
          refine ⟨?_, ?_, ?_⟩
          · constructor
            · intro _
              exact ⟨⟨game, rfl, beq_iff_eq.mp hphase⟩, hadm,
                (normalizePlayerOrder_perm_iff_length newOrder _ hnd).mpr hlen⟩
            · intro _; rfl
          · intro hfail; cases hfail
          · intro _ game2 hgame2
            cases hgame2
            exact getGame_saveGameState s gameId _ game hg
        · have hcond : (((normalizePlayerOrder newOrder (eligibleEmails s gameId)).length !=
              (eligibleEmails s gameId).length) ||
              ((eligibleEmails s gameId).any fun email =>
                !((normalizePlayerOrder newOrder (eligibleEmails s gameId)).contains email))) =
              true := by
            rw [hany, Bool.or_false]
            exact bne_iff_ne.mpr hlen
          have hres : reorderPlayerOrder s gameId adminEmail newOrder =
              (s, ⟨false, "Order must include all confirmed players exactly once."⟩) := by
            simp only [reorderPlayerOrder, hg, hphase, Bool.not_true, Bool.false_eq_true,
              if_false, hadm, hcond, if_true]
          rw [hres]
          refine ⟨?_, fun _ => rfl, ?_⟩
          · constructor
            · intro h; cases h
            · rintro ⟨-, -, hperm⟩
              exact absurd ((normalizePlayerOrder_perm_iff_length newOrder _ hnd).mp hperm)
                hlen
          · intro hok; cases hok
      · have hadm2 : isAdmin s gameId adminEmail = false := by
          revert hadm; cases isAdmin s gameId adminEmail <;> simp
        have hres : reorderPlayerOrder s gameId adminEmail newOrder =
            (s, ⟨false, notAdminMsg⟩) := by
          simp only [reorderPlayerOrder, hg, hphase, Bool.not_true, Bool.false_eq_true,
            if_false, hadm2, Bool.not_false, if_true]
        rw [hres]
        refine ⟨?_, fun _ => rfl, ?_⟩
        · constructor
          · intro h; cases h
          · rintro ⟨-, hadm3, -⟩
            rw [hadm2] at hadm3
            cases hadm3
        · intro hok; cases hok
    · have hphase2 : (game.status == GameStatus.not_started) = false := by
        revert hphase; cases game.status == GameStatus.not_started <;> simp
      have hres : reorderPlayerOrder s gameId adminEmail newOrder =
          (s, ⟨false, "Cannot reorder after game start."⟩) := by
        simp only [reorderPlayerOrder, hg, hphase2, Bool.not_false, if_true]
      rw [hres]
      refine ⟨?_, fun _ => rfl, ?_⟩
      · constructor
        · intro h; cases h
        · rintro ⟨⟨game2, hgame2, hst⟩, -, -⟩
          cases hgame2
          exact absurd (beq_iff_eq.mpr hst) hphase
      · intro hok; cases hok

/-- Witness for C4: on the concrete session with admin a@x.com and
confirmed b@x.com, the proposed order [b, a] is accepted and stored
verbatim. -/
theorem C4_reorderPlayerOrder_witness :
    (reorderPlayerOrder storeC4 1 "a@x.com" ["b@x.com", "a@x.com"]).2.ok = true := by
  have h := (C4_reorderPlayerOrder storeC4 1 "a@x.com" ["b@x.com", "a@x.com"]
    (by decide)).1
  apply h.mpr
  refine ⟨⟨⟨1, "Friday Night", "123456", "a@x.com", GameStatus.not_started,
    ⟨["a@x.com"], []⟩⟩, by decide, rfl⟩, by decide, ?_⟩
  have : normalizePlayerOrder ["b@x.com", "a@x.com"] (eligibleEmails storeC4 1) =
      ["b@x.com", "a@x.com"] := by decide
  rw [this]
  have : eligibleEmails storeC4 1 = ["a@x.com", "b@x.com"] := by decide
  rw [this]
  decide

/-! ## C5: `generateGameLayout` (random mode) -/

theorem count_set_add {α : Type} [DecidableEq α] :
    ∀ (l : List α) (i : Nat) (x y : α) (h : i < l.length),
      (l.set i x).count y + (if l[i] = y then 1 else 0) =
        l.count y + (if x = y then 1 else 0) := by
  intro l
  induction l with
  | nil => intro i x y h; simp at h
  | cons a t ih =>
    intro i x y h
    match i with
    | 0 =>
      simp only [List.set_cons_zero, List.getElem_cons_zero, List.count_cons]
      by_cases hx : x = y <;> by_cases ha : a = y <;>
        simp [hx, ha]
    | i + 1 =>
      simp only [List.set_cons_succ, List.getElem_cons_succ, List.count_cons]
      have hit : i < t.length := by simpa using h
      have := ih i x y hit
      by_cases ha : a = y <;> simp [ha] <;> omega

theorem swapList_perm {α : Type} [DecidableEq α] (l : List α) (i j : Nat) :
    (swapList l i j).Perm l := by
  unfold swapList
  cases hi : l[i]? with
  | none => exact List.Perm.refl l
  | some a =>
    cases hj : l[j]? with
    | none => exact List.Perm.refl l
    | some b =>
      obtain ⟨hil, hia⟩ := List.getElem?_eq_some.mp hi
      obtain ⟨hjl, hjb⟩ := List.getElem?_eq_some.mp hj
      rw [List.perm_iff_count]
      intro y
      have hjl2 : j < (l.set i b).length := by
        rw [List.length_set]; exact hjl
      have h1 := count_set_add l i b y hil
      have h2 := count_set_add (l.set i b) j a y hjl2
      have hget : (l.set i b)[j] = b := by
        by_cases hij : i = j
        · subst hij
          exact List.getElem_set_self hjl2
        · rw [List.getElem_set_ne hij hjl2]
          exact hjb
      rw [hget] at h2
      rw [hia] at h1
      by_cases hay : a = y <;> by_cases hby : b = y <;>
        simp [hay, hby] at h1 h2 ⊢ <;> omega

theorem fyLoop_perm {α : Type} [DecidableEq α] (rand : Nat → Nat) :
    ∀ (n : Nat) (l : List α), (fyLoop rand l n).Perm l := by
  intro n
  induction n with
  | zero => intro l; exact List.Perm.refl l
  | succ i ih =>
    intro l
    exact (ih _).trans (swapList_perm l (i + 1) (rand (i + 1) % (i + 2)))

theorem shuffle_perm {α : Type} [DecidableEq α] (rand : Nat → Nat) (l : List α) :
    (shuffle rand l).Perm l :=
  fyLoop_perm rand (l.length - 1) l

theorem buildTiles_length :
    ∀ (ts : List HexTerrain) (toks : List Nat) (idx : Nat),
      (buildTiles ts toks idx).length = ts.length := by
  intro ts
  induction ts with
  | nil => intro toks idx; rfl
  | cons t rest ih =>
    intro toks idx
    unfold buildTiles
    split <;> simp [ih]

theorem buildTiles_terrains :
    ∀ (ts : List HexTerrain) (toks : List Nat) (idx : Nat),
      (buildTiles ts toks idx).map (fun tile => tile.terrain) = ts := by
  intro ts
  induction ts with
  | nil => intro toks idx; rfl
  | cons t rest ih =>
    intro toks idx
    unfold buildTiles
    split
    · next ht => simp [ih, beq_iff_eq.mp ht]
    · simp [ih]

theorem buildTiles_robber :
    ∀ (ts : List HexTerrain) (toks : List Nat) (idx : Nat),
      ∀ tile ∈ buildTiles ts toks idx,
        (tile.terrain = HexTerrain.desert → tile.token = none ∧ tile.hasRobber = true) ∧
        (tile.terrain ≠ HexTerrain.desert → tile.hasRobber = false) := by
  intro ts
  induction ts with
  | nil => intro toks idx tile h; exact absurd h (List.not_mem_nil tile)
  | cons t rest ih =>
    intro toks idx tile h
    unfold buildTiles at h
    split at h
    · next ht =>
      rcases List.mem_cons.mp h with rfl | htail
      · exact ⟨fun _ => ⟨rfl, rfl⟩, fun hne => absurd (beq_iff_eq.mp ht) hne⟩
      · exact ih toks (idx + 1) tile htail
    · next ht =>
      rcases List.mem_cons.mp h with rfl | htail
      · refine ⟨fun hd => ?_, fun _ => rfl⟩
        exact absurd (beq_iff_eq.mpr hd) (by simpa using ht)
      · exact ih toks.tail (idx + 1) tile htail

theorem buildTiles_tokens :
    ∀ (ts : List HexTerrain) (toks : List Nat) (idx : Nat),
      (ts.countP fun t => !(t == HexTerrain.desert)) = toks.length →
      ((buildTiles ts toks idx).filterMap (fun tile => tile.token) = toks ∧
       ∀ tile ∈ buildTiles ts toks idx,
         tile.terrain ≠ HexTerrain.desert → tile.token.isSome = true) := by
  intro ts
  induction ts with
  | nil =>
    intro toks idx h
    rw [List.countP_nil] at h
    have : toks = [] := List.eq_nil_of_length_eq_zero h.symm
    subst this
    exact ⟨rfl, fun tile htile => absurd htile (List.not_mem_nil tile)⟩
  | cons t rest ih =>
    intro toks idx h
    by_cases ht : (t == HexTerrain.desert) = true
    · rw [List.countP_cons, ht] at h
      simp only [Bool.not_true, Bool.false_eq_true, if_false, Nat.add_zero] at h
      obtain ⟨ihEq, ihSome⟩ := ih toks (idx + 1) h
      constructor
      · unfold buildTiles
        rw [if_pos ht]
        simpa using ihEq
      · intro tile htile hnd
        unfold buildTiles at htile
        rw [if_pos ht] at htile
        rcases List.mem_cons.mp htile with rfl | htail
        · exact absurd (beq_iff_eq.mp ht) hnd
        · exact ihSome tile htail hnd
    · have ht2 : (t == HexTerrain.desert) = false := by
        revert ht; cases t == HexTerrain.desert <;> simp
      rw [List.countP_cons, ht2] at h
      simp only [Bool.not_false, if_pos] at h
      cases toks with
      | nil => simp at h
      | cons tok tail =>
        have hlen : (rest.countP fun t => !(t == HexTerrain.desert)) = tail.length := by
          simpa using h
        obtain ⟨ihEq, ihSome⟩ := ih tail (idx + 1) hlen
        constructor
        · unfold buildTiles
          rw [if_neg (by simp [ht2])]
          simpa using ihEq
        · intro tile htile hnd
          unfold buildTiles at htile
          rw [if_neg (by simp [ht2])] at htile
          rcases List.mem_cons.mp htile with rfl | htail
          · rfl
          · exact ihSome tile htail hnd

/-- C5: with no preset (or any preset other than `standard`), once the
session exists, the caller is an admin and the phase is `not_started`,
layout generation succeeds and stores the random-mode tile list; that
list always has exactly 19 tiles whose terrain multiset is
{wood 4, wheat 4, sheep 4, brick 3, ore 3, desert 1}; there is exactly
one desert tile, it carries no token and the robber marker, every
non-desert tile carries a token and no robber, and the tokens taken
together are a permutation of the fixed 18-token multiset
{2, 12 once; 3, 4, 5, 6, 8, 9, 10, 11 twice}.  The call fails whenever
the caller is not an admin or the phase is not `not_started`. -/
theorem C5_generateGameLayout (s : Store) (gameId : Nat) (adminEmail : String)
    (preset : Option String) (randT randK : Nat → Nat)
    (hpreset : preset ≠ some "standard") :
    (∀ game, getGame s gameId = some game →
      (isAdmin s gameId adminEmail = false ∨ game.status ≠ GameStatus.not_started) →
      (generateGameLayout s gameId adminEmail preset randT randK).2.ok = false) ∧
    (∀ game, getGame s gameId = some game → isAdmin s gameId adminEmail = true →
      game.status = GameStatus.not_started →
      (generateGameLayout s gameId adminEmail preset randT randK).2.ok = true ∧
      ∀ g ∈ (generateGameLayout s gameId adminEmail preset randT randK).1.games,
        g.id = gameId → g.gameState.tiles = layoutTiles randT randK) ∧
    (layoutTiles randT randK).length = 19 ∧
    ((layoutTiles randT randK).map fun tile => tile.terrain).count HexTerrain.wood = 4 ∧
    ((layoutTiles randT randK).map fun tile => tile.terrain).count HexTerrain.wheat = 4 ∧
    ((layoutTiles randT randK).map fun tile => tile.terrain).count HexTerrain.sheep = 4 ∧
    ((layoutTiles randT randK).map fun tile => tile.terrain).count HexTerrain.brick = 3 ∧
    ((layoutTiles randT randK).map fun tile => tile.terrain).count HexTerrain.ore = 3 ∧
    ((layoutTiles randT randK).map fun tile => tile.terrain).count HexTerrain.desert = 1 ∧
    ((layoutTiles randT randK).filter
      fun tile => tile.terrain == HexTerrain.desert).length = 1 ∧
    (∀ tile ∈ layoutTiles randT randK,
      (tile.terrain = HexTerrain.desert → tile.token = none ∧ tile.hasRobber = true) ∧
      (tile.terrain ≠ HexTerrain.desert →
        tile.token.isSome = true ∧ tile.hasRobber = false)) ∧
    ((layoutTiles randT randK).filterMap fun tile => tile.token).Perm tokens0 := by
  have hpre2 : (preset == some "standard") = false := beq_eq_false_iff_ne.mpr hpreset
  have hpermT := shuffle_perm randT terrains0
  have hpermK := shuffle_perm randK tokens0
  have hcount : ((shuffle randT terrains0).countP fun t => !(t == HexTerrain.desert)) =
      (shuffle randK tokens0).length := by
    rw [List.Perm.countP_eq _ hpermT, hpermK.length_eq]
    decide
  obtain ⟨htoksEq, htoksSome⟩ := buildTiles_tokens (shuffle randT terrains0)
    (shuffle randK tokens0) 0 hcount
  have hcountX : ∀ x : HexTerrain,
      ((layoutTiles randT randK).map fun tile => tile.terrain).count x =
        terrains0.count x := by
    intro x
    rw [layoutTiles, buildTiles_terrains, hpermT.count_eq]
  refine ⟨?_, ?_, ?_, ?_, ?_, ?_, ?_, ?_, ?_, ?_, ?_, ?_⟩
  · intro game hgame hbad
    by_cases hadm : isAdmin s gameId adminEmail = true
    · rcases hbad with hadm2 | hstat
      · rw [hadm] at hadm2; cases hadm2
      · have hstat2 : (game.status == GameStatus.not_started) = false :=
          beq_eq_false_iff_ne.mpr hstat
        simp [generateGameLayout, hgame, hadm, hstat2]
    · have hadm2 : isAdmin s gameId adminEmail = false := by
        revert hadm; cases isAdmin s gameId adminEmail <;> simp
      simp [generateGameLayout, hgame, hadm2]
  · intro game hgame hadm hstat
    have hstat2 : (game.status == GameStatus.not_started) = true := beq_iff_eq.mpr hstat
    have hres : generateGameLayout s gameId adminEmail preset randT randK =
        (saveGameState s gameId
          ⟨normalizePlayerOrder game.gameState.playerOrder
            (((playersOf s gameId).filter fun p =>
              !(p.status == GamePlayerStatus.waiting)).map fun p => p.email),
           layoutTiles randT randK⟩,
         ⟨true, "Game layout generated."⟩) := by
      simp only [generateGameLayout, hgame, hadm, Bool.not_true, Bool.false_eq_true,
        if_false, hstat2, hpre2, layoutTiles]
    rw [hres]
    refine ⟨rfl, ?_⟩
    intro g hg hid
    simp only [saveGameState] at hg
    obtain ⟨q, hq, rfl⟩ := List.mem_map.mp hg
    by_cases hmatch : (q.id == gameId) = true
    · simp [hmatch]
    · rw [if_neg (by simp [hmatch])] at hid ⊢
      exact absurd (beq_iff_eq.mpr hid) hmatch
  · rw [layoutTiles, buildTiles_length, hpermT.length_eq]
    decide
  · rw [hcountX]; decide
  · rw [hcountX]; decide
  · rw [hcountX]; decide
  · rw [hcountX]; decide
  · rw [hcountX]; decide
  · rw [hcountX]; decide
  · rw [← List.countP_eq_length_filter]
    rw [show (fun tile : GameStateTile => tile.terrain == HexTerrain.desert) =
      ((fun x => x == HexTerrain.desert) ∘ fun tile : GameStateTile => tile.terrain)
      from rfl]
    rw [← List.countP_map, layoutTiles, buildTiles_terrains, ← List.count_eq_countP,
      hpermT.count_eq]
    decide
  · intro tile htile
    rw [layoutTiles] at htile
    refine ⟨(buildTiles_robber _ _ _ tile htile).1, fun hnd => ?_⟩
    exact ⟨htoksSome tile htile hnd, (buildTiles_robber _ _ _ tile htile).2 hnd⟩
  · rw [layoutTiles, htoksEq]
    exact hpermK

/-- Witness for C5: on the concrete not-started session with admin
a@x.com and the all-zero randomness source, the call succeeds and the
generated tile list has 19 tiles. -/
theorem C5_generateGameLayout_witness :
    (generateGameLayout storeC5 1 "a@x.com" none rand0 rand0).2.ok = true ∧
    (layoutTiles rand0 rand0).length = 19 := by
  have h := C5_generateGameLayout storeC5 1 "a@x.com" none rand0 rand0 (by decide)
  have h2 := h.2.1 ⟨1, "Friday Night", "123456", "a@x.com", GameStatus.not_started,
    ⟨["a@x.com"], []⟩⟩ (by decide) (by decide) rfl
  exact ⟨h2.1, h.2.2.1⟩
